import Mathlib

/-!
Verification of the transaction-submission core of the fh3nix/nitr0gen
automation tool (`src/managers/BlockchainManager.js`): nonce tracking,
gas pricing with clamping and retry escalation, gas estimation with a
safety buffer, the unified `sendTransaction` pipeline, and `getBalance`.

Numbers the JavaScript holds as BigInt or Number are modelled as ℕ/ℤ,
floating-point multiplier arithmetic as exact rationals with explicit
floors, and every fallible RPC call as an `Except`-valued field of an
environment record supplied to each call.
-/

/-- The two networks handled by the manager (`'fhenix'` default, `'sepolia'`). -/
inductive Network where
  | fhenix
  | sepolia
  deriving DecidableEq, Repr

/-- A JavaScript error as consumed by the catch blocks: `message` is always
present; `code`, `data` and `reason` may be absent (`error.code || 'unknown'`
etc.). -/
structure JsError where
  message : String
  code : Option String
  data : Option String
  reason : Option String
  deriving DecidableEq, Repr

/-- Transaction receipt as returned by `sendSignedTransaction`. -/
structure Receipt where
  transactionHash : String
  deriving DecidableEq, Repr

/-- Modelled from the spec: `src/utils/constants.js` is absent from the
snapshot; its consumed fields are the GAS table (`PRICE_MULTIPLIER`,
`RETRY_INCREASE`, `MIN_GWEI`, `MAX_GWEI`, `DEFAULT_GAS`), the per-network
chain ids and the currency symbol, per spec §6 ("gas price multiplier
(float), min/max gas price bounds (gwei), default gas limit fallback
(integer), retry escalation factor (float > 1)"). -/
structure Constants where
  priceMultiplier : ℚ
  retryIncrease : ℚ
  minGwei : ℕ
  maxGwei : ℕ
  defaultGas : ℕ
  fhenixChainId : ℕ
  sepoliaChainId : ℕ
  currencySymbol : String
  deriving DecidableEq, Repr

/-- The slice of the config object read by the manager:
`config.general && config.general.gas_price_multiplier`. -/
structure Config where
  gasPriceMultiplier : Option ℚ
  deriving DecidableEq, Repr

/-- Environment for one `sendTransaction` call: the outcome of each RPC
interaction the call may perform, in program order. -/
structure RpcEnv where
  txCount : Except JsError ℕ
  gasPriceWei : Except JsError ℕ
  estimate : Except JsError ℕ
  sign : Except JsError Unit
  send : Except JsError Receipt
  deriving Repr

/-- Mutable state of one `BlockchainManager` instance: the two tracked
nonce counters (`this.currentNonce`, `this.sepoliaNonce`), both starting
`null`. -/
structure BMState where
  currentNonce : Option ℕ
  sepoliaNonce : Option ℕ
  deriving DecidableEq, Repr

/-- Read the tracked counter for a network. -/
def cachedNonce (st : BMState) : Network → Option ℕ
  | .sepolia => st.sepoliaNonce
  | .fhenix => st.currentNonce

/-- Write the tracked counter for a network. -/
def setCachedNonce (st : BMState) (network : Network) (v : Option ℕ) : BMState :=
  match network with
  | .sepolia => { st with sepoliaNonce := v }
  | .fhenix => { st with currentNonce := v }

/-- Operation `getNonce(network)`: if the tracked counter is `null`, fetch
`getTransactionCount` from the network and cache it; otherwise return the
tracked value. Returns the nonce with the updated state, paired with the
number of network fetches the call issued (0 or 1). A fetch failure
propagates to the caller. -/
def getNonce (st : BMState) (env : RpcEnv) (network : Network) :
    Except JsError (ℕ × BMState) × ℕ :=
  match cachedNonce st network with
  | some n => (.ok (n, st), 0)
  | none =>
    match env.txCount with
    | .ok n => (.ok (n, setCachedNonce st network (some n)), 1)
    | .error e => (.error e, 1)

/-- Operation `incrementNonce(network)`: if the tracked counter is initialized,
increment it by one; otherwise leave the state unchanged. -/
def incrementNonce (st : BMState) (network : Network) : BMState :=
  match cachedNonce st network with
  | some n => setCachedNonce st network (some (n + 1))
  | none => st

/-- Operation `resetNonce(network)`: set the tracked counter back to `null`. -/
def resetNonce (st : BMState) (network : Network) : BMState :=
  setCachedNonce st network none

/-- The base multiplier:
`(this.config.general && this.config.general.gas_price_multiplier) || constants.GAS.PRICE_MULTIPLIER`.
A missing or zero (JavaScript-falsy) configured value falls back to the
constant. -/
def resolveMultiplier (C : Constants) (cfg : Config) : ℚ :=
  match cfg.gasPriceMultiplier with
  | some q => if q = 0 then C.priceMultiplier else q
  | none => C.priceMultiplier

/-- Configured minimum gas price in wei: `toWei(MIN_GWEI, 'gwei')`. -/
def minWei (C : Constants) : ℤ := (C.minGwei : ℤ) * 10 ^ 9

/-- Configured maximum gas price in wei: `toWei(MAX_GWEI, 'gwei')`. -/
def maxWei (C : Constants) : ℤ := (C.maxGwei : ℤ) * 10 ^ 9

/-- The multiplier used by `getGasPrice`: the base multiplier, scaled by
`Math.pow(RETRY_INCREASE, retryCount)` only when `retryCount > 0`. -/
def gasMultiplier (C : Constants) (cfg : Config) (retryCount : ℕ) : ℚ :=
  let base := resolveMultiplier C cfg
  if retryCount > 0 then base * C.retryIncrease ^ retryCount else base

/-- Operation `getGasPrice(retryCount, network)`: fetch the network gas price, apply
the multiplier (`BigInt(Math.floor(Number(networkGasPrice) * multiplier))`),
clamp into `[minWei, maxWei]`, and return it; on any fetch error fall back
to the configured minimum. Total: never throws. -/
def getGasPrice (C : Constants) (cfg : Config) (retryCount : ℕ) (env : RpcEnv) : ℤ :=
  match env.gasPriceWei with
  | .ok networkGasPrice =>
    let multiplier := gasMultiplier C cfg retryCount
    let adjustedGasPrice : ℤ := ⌊(networkGasPrice : ℚ) * multiplier⌋
    if adjustedGasPrice < minWei C then minWei C
    else if adjustedGasPrice > maxWei C then maxWei C
    else adjustedGasPrice
  | .error _ => minWei C

/-- Operation `estimateGas(txObject, network)`: request an estimate from the network
and apply the buffer `Math.floor(Number(estimatedGas) * 1.2)`; on
estimation error fall back to `constants.GAS.DEFAULT_GAS`. Total: never
throws. -/
def estimateGas (C : Constants) (env : RpcEnv) : ℕ :=
  match env.estimate with
  | .ok estimatedGas => ⌊(estimatedGas : ℚ) * 1.2⌋₊
  | .error _ => C.defaultGas

/-- The buffer the spec text ascribes to `estimateGas`: the network
estimate "increased by a fixed 20% safety buffer, with the result rounded
up (ceiling)". Stated from the spec's words, for comparison with
`estimateGas` as read off the source. -/
def estimateGasSpecCeil (estimatedGas : ℕ) : ℕ :=
  ⌈(estimatedGas : ℚ) * 1.2⌉₊

/-- The chain id attached to the transaction template. -/
def chainIdOf (C : Constants) : Network → ℕ
  | .sepolia => C.sepoliaChainId
  | .fhenix => C.fhenixChainId

/-- The assembled transaction: the template (`from`, caller fields,
`nonce`, `chainId`) with the estimated `gas` limit and the computed
`gasPrice` attached; this object is what gets signed. -/
structure Tx where
  nonce : ℕ
  chainId : ℕ
  gas : ℕ
  gasPrice : ℤ
  deriving DecidableEq, Repr

/-- The `details` object built in `sendTransaction`'s catch block. -/
structure ErrDetails where
  message : String
  code : String
  data : String
  reason : String
  deriving DecidableEq, Repr

/-- The details record `{message, code: error.code || 'unknown',
data: error.data || 'no data', reason: error.reason || 'unknown reason'}`. -/
def mkDetails (e : JsError) : ErrDetails :=
  ⟨e.message, e.code.getD "unknown", e.data.getD "no data",
    e.reason.getD "unknown reason"⟩

/-- The result object `sendTransaction` returns to every caller. -/
structure TxResult where
  success : Bool
  txHash : Option String
  receipt : Option Receipt
  error : Option String
  details : Option ErrDetails
  deriving DecidableEq, Repr

/-- The catch-block result: `{success: false, error: error.message, details}`. -/
def failResult (e : JsError) : TxResult :=
  ⟨false, none, none, some e.message, some (mkDetails e)⟩

/-- The success result: `{txHash: receipt.transactionHash, receipt, success: true}`. -/
def okResult (r : Receipt) : TxResult :=
  ⟨true, some r.transactionHash, some r, none, none⟩

/-- Everything observable about one `sendTransaction` call: the returned
result object, the manager state it leaves behind, the assembled
transaction (when the call got as far as building one), and whether the
signing step completed successfully. -/
structure CallOutcome where
  result : TxResult
  state : BMState
  assembled : Option Tx
  signedOk : Bool
  deriving DecidableEq, Repr

/-- Operation `sendTransaction(txObject, methodName, network)`, strictly sequential:
acquire the nonce (a fetch failure is caught and reported), compute the gas
price with `retryCount = 0`, estimate gas, assemble the transaction, sign
it (a signing failure is caught and reported, nonce untouched), increment
the nonce, then broadcast (a broadcast failure is caught and reported, the
incremented nonce kept). Total: every path returns a result object. -/
def sendTransaction (C : Constants) (cfg : Config) (env : RpcEnv)
    (st : BMState) (network : Network) : CallOutcome :=
  match (getNonce st env network).1 with
  | .error e => ⟨failResult e, st, none, false⟩
  | .ok (nonce, st1) =>
    let gasPrice := getGasPrice C cfg 0 env
    let gasLimit := estimateGas C env
    let tx : Tx := ⟨nonce, chainIdOf C network, gasLimit, gasPrice⟩
    match env.sign with
    | .error e => ⟨failResult e, st1, some tx, false⟩
    | .ok _ =>
      let st2 := incrementNonce st1 network
      match env.send with
      | .error e => ⟨failResult e, st2, some tx, true⟩
      | .ok receipt => ⟨okResult receipt, st2, some tx, true⟩

/-- Run a sequence of `sendTransaction` calls on one manager instance,
threading the state, one environment per call. -/
def runCalls (C : Constants) (cfg : Config) (network : Network) :
    List RpcEnv → BMState → List CallOutcome
  | [], _ => []
  | env :: envs, st =>
    let o := sendTransaction C cfg env st network
    o :: runCalls C cfg network envs o.state

/-- The nonce each assembled transaction of a call sequence carries
(`none` when the call failed before assembling one). -/
def nonceTrace (C : Constants) (cfg : Config) (network : Network)
    (envs : List RpcEnv) (st : BMState) : List (Option ℕ) :=
  (runCalls C cfg network envs st).map (fun o => o.assembled.map Tx.nonce)

/-- The result object `getBalance` returns. -/
structure BalanceResult where
  balance : ℕ
  balanceInEth : ℚ
  currency : String
  error : Option String
  deriving DecidableEq, Repr

/-- The currency symbol reported by `getBalance`. -/
def currencyOf (C : Constants) : Network → String
  | .sepolia => "ETH"
  | .fhenix => C.currencySymbol

/-- Operation `getBalance(network)`: fetch the balance and report it with its
ether-denominated value (`fromWei(balance, 'ether')`) and the currency;
on any error return zero balances, the currency, and the error message.
Total: never throws. -/
def getBalance (C : Constants) (balanceFetch : Except JsError ℕ)
    (network : Network) : BalanceResult :=
  match balanceFetch with
  | .ok balance => ⟨balance, (balance : ℚ) / 10 ^ 18, currencyOf C network, none⟩
  | .error e => ⟨0, 0, currencyOf C network, some e.message⟩

/-! ### Shared concrete inputs for witnesses and counterexamples -/

/-- A concrete constants table in the shape the spec describes
(multiplier 1.1, escalation 1.3, band [1, 50] gwei, default gas 150000). -/
def demoConsts : Constants :=
  ⟨11 / 10, 13 / 10, 1, 50, 150000, 8008135, 11155111, "tFHE"⟩

/-- A concrete config with no multiplier override. -/
def demoCfg : Config := ⟨none⟩

/-- A concrete JavaScript error. -/
def demoErr : JsError :=
  ⟨"execution reverted", some "-32000", none, some "revert"⟩

/-- An environment where every RPC call succeeds and the network reports a
zero gas price. -/
def demoEnvZero : RpcEnv :=
  ⟨.ok 0, .ok 0, .ok 21000, .ok (), .ok ⟨"0xaa"⟩⟩

/-- An environment where every RPC call succeeds, with gas estimate 101. -/
def demoEnv101 : RpcEnv :=
  ⟨.ok 5, .ok (10 ^ 9), .ok 101, .ok (), .ok ⟨"0xbb"⟩⟩

/-- An environment whose gas-estimation call fails. -/
def demoEnvEstFail : RpcEnv :=
  ⟨.ok 5, .ok (10 ^ 9), .error demoErr, .ok (), .ok ⟨"0xcc"⟩⟩

/-- An environment whose gas-price fetch fails. -/
def demoEnvGasFail : RpcEnv :=
  ⟨.ok 5, .error demoErr, .ok 101, .ok (), .ok ⟨"0xdd"⟩⟩

/-! ### Gas-price clamping and escalation -/

lemma minWei_le_maxWei (C : Constants) (h : C.minGwei ≤ C.maxGwei) :
    minWei C ≤ maxWei C := by
  have h2 : (C.minGwei : ℤ) ≤ (C.maxGwei : ℤ) := by exact_mod_cast h
  unfold minWei maxWei
  have : (0:ℤ) ≤ 10 ^ 9 := by norm_num
  exact mul_le_mul_of_nonneg_right h2 this

/-- Claim C4: for every raw network gas price (including 0 and arbitrarily
large values) and every retryCount, `getGasPrice` returns a value within
the configured `[minGwei, maxGwei]` band converted to wei: below-minimum
adjusted prices are raised to the minimum, above-maximum ones lowered to
the maximum. -/
theorem getGasPrice_within_band (C : Constants) (cfg : Config)
    (retryCount : ℕ) (env : RpcEnv) (h : C.minGwei ≤ C.maxGwei) :
    minWei C ≤ getGasPrice C cfg retryCount env ∧
      getGasPrice C cfg retryCount env ≤ maxWei C := by
  have hmm := minWei_le_maxWei C h
  cases henv : env.gasPriceWei with
  | error e => simp only [getGasPrice, henv]; exact ⟨le_refl _, hmm⟩
  | ok p =>
    simp only [getGasPrice, henv]
    split_ifs with h1 h2
    · exact ⟨le_refl _, hmm⟩
    · exact ⟨hmm, le_refl _⟩
    · exact ⟨by linarith, by linarith⟩

/-- Witness for C4 at a concrete input with network gas price 0. -/
theorem getGasPrice_within_band_witness :
    demoConsts.minGwei ≤ demoConsts.maxGwei ∧
      (minWei demoConsts ≤ getGasPrice demoConsts demoCfg 0 demoEnvZero ∧
        getGasPrice demoConsts demoCfg 0 demoEnvZero ≤ maxWei demoConsts) :=
  ⟨by decide, getGasPrice_within_band demoConsts demoCfg 0 demoEnvZero (by decide)⟩

/-- Claim C5: for a fixed base network gas price, the price `getGasPrice`
returns with `retryCount = k` is at least the price it returns with
`retryCount = 0`, for every `k`, given the spec's constraints on the
configured constants (escalation factor ≥ 1, nonnegative base multiplier,
a well-formed min/max band). -/
theorem getGasPrice_retry_escalates (C : Constants) (cfg : Config)
    (env : RpcEnv) (k : ℕ) (hband : C.minGwei ≤ C.maxGwei)
    (hr : 1 ≤ C.retryIncrease) (hm : 0 ≤ resolveMultiplier C cfg) :
    getGasPrice C cfg 0 env ≤ getGasPrice C cfg k env := by
  have hmm := minWei_le_maxWei C hband
  cases henv : env.gasPriceWei with
  | error e => simp only [getGasPrice, henv]; exact le_refl _
  | ok p =>
    have hmul : gasMultiplier C cfg 0 ≤ gasMultiplier C cfg k := by
      unfold gasMultiplier
      simp only [gt_iff_lt, lt_irrefl, if_false]
      by_cases hk : 0 < k
      · rw [if_pos hk]
        have h1 : (1:ℚ) ≤ C.retryIncrease ^ k := one_le_pow₀ hr
        calc resolveMultiplier C cfg = resolveMultiplier C cfg * 1 := by ring
          _ ≤ resolveMultiplier C cfg * C.retryIncrease ^ k :=
              mul_le_mul_of_nonneg_left h1 hm
      · rw [if_neg hk]
    have hfl : (⌊(p : ℚ) * gasMultiplier C cfg 0⌋ : ℤ) ≤
        ⌊(p : ℚ) * gasMultiplier C cfg k⌋ := by
      apply Int.floor_le_floor
      exact mul_le_mul_of_nonneg_left hmul (by positivity)
    simp only [getGasPrice, henv]
    split_ifs <;> linarith

/-- Witness for C5 at a concrete input (network price 10 gwei, k = 2). -/
theorem getGasPrice_retry_escalates_witness :
    demoConsts.minGwei ≤ demoConsts.maxGwei ∧ 1 ≤ demoConsts.retryIncrease ∧
      0 ≤ resolveMultiplier demoConsts demoCfg ∧
      getGasPrice demoConsts demoCfg 0 demoEnv101 ≤
        getGasPrice demoConsts demoCfg 2 demoEnv101 :=
  ⟨by decide, by norm_num [demoConsts],
    by norm_num [resolveMultiplier, demoConsts, demoCfg],
    getGasPrice_retry_escalates demoConsts demoCfg demoEnv101 2 (by decide)
      (by norm_num [demoConsts])
      (by norm_num [resolveMultiplier, demoConsts, demoCfg])⟩

/-! ### Gas estimation buffer -/

/-- Counterexample to claim C6: at a network estimate of 101 the code
returns `Math.floor(101 * 1.2) = 121`, not the ceiling `122` required by
the claim's "rounded up (ceiling)". -/
theorem estimateGas_not_ceiling :
    estimateGas demoConsts demoEnv101 = 121 ∧
      estimateGasSpecCeil 101 = 122 ∧ (121 : ℕ) ≠ 122 := by
  refine ⟨?_, ?_, by decide⟩
  · show (⌊((101 : ℕ) : ℚ) * 1.2⌋₊) = 121
    norm_num [Nat.floor_eq_iff]
  · show (⌈((101 : ℕ) : ℚ) * 1.2⌉₊) = 122
    norm_num [Nat.ceil_eq_iff]

/-- Claim C6 as amended: when the network estimate succeeds, `estimateGas`
returns the estimate increased by the fixed 20% buffer rounded DOWN to an
integer, i.e. `12 * estimate / 10` in integer division. -/
theorem estimateGas_buffer (C : Constants) (env : RpcEnv) (e : ℕ)
    (h : env.estimate = .ok e) : estimateGas C env = 12 * e / 10 := by
  simp only [estimateGas, h]
  have h12 : ((e : ℚ)) * 1.2 = ((12 * e : ℕ) : ℚ) / ((10 : ℕ) : ℚ) := by
    push_cast
    rw [show (1.2 : ℚ) = 12 / 10 by norm_num]
    ring
  rw [h12, Rat.natFloor_natCast_div_natCast]

/-- Witness for the amended C6 at estimate 101: `12 * 101 / 10 = 121`. -/
theorem estimateGas_buffer_witness :
    demoEnv101.estimate = .ok 101 ∧ estimateGas demoConsts demoEnv101 = 121 :=
  ⟨rfl, by rw [estimateGas_buffer demoConsts demoEnv101 101 rfl]⟩

/-- Claim C7: when the network gas-estimation call fails, `estimateGas`
returns exactly the configured default gas limit; being a total function
it never throws, so an estimation failure never becomes a submission
failure. -/
theorem estimateGas_fallback_default (C : Constants) (env : RpcEnv)
    (err : JsError) (h : env.estimate = .error err) :
    estimateGas C env = C.defaultGas := by
  simp [estimateGas, h]

/-- Witness for C7 at a concrete failing estimation. -/
theorem estimateGas_fallback_default_witness :
    demoEnvEstFail.estimate = .error demoErr ∧
      estimateGas demoConsts demoEnvEstFail = demoConsts.defaultGas :=
  ⟨rfl, estimateGas_fallback_default demoConsts demoEnvEstFail demoErr rfl⟩

/-- Claim C8: when the network gas-price fetch fails, `getGasPrice`
returns the configured minimum (`minGwei` converted to wei); being a total
function it never throws, so a fetch failure never becomes a submission
failure. -/
theorem getGasPrice_fetch_fallback (C : Constants) (cfg : Config)
    (retryCount : ℕ) (env : RpcEnv) (err : JsError)
    (h : env.gasPriceWei = .error err) :
    getGasPrice C cfg retryCount env = (C.minGwei : ℤ) * 10 ^ 9 := by
  simp [getGasPrice, h, minWei]

/-- Witness for C8 at a concrete failing fetch. -/
theorem getGasPrice_fetch_fallback_witness :
    demoEnvGasFail.gasPriceWei = .error demoErr ∧
      getGasPrice demoConsts demoCfg 0 demoEnvGasFail =
        (demoConsts.minGwei : ℤ) * 10 ^ 9 :=
  ⟨rfl, getGasPrice_fetch_fallback demoConsts demoCfg 0 demoEnvGasFail demoErr rfl⟩

/-! ### Nonce-state helper lemmas -/

lemma cachedNonce_set (st : BMState) (network : Network) (v : Option ℕ) :
    cachedNonce (setCachedNonce st network v) network = v := by
  cases network <;> simp [cachedNonce, setCachedNonce]

lemma incrementNonce_cached {st : BMState} {network : Network} {n : ℕ}
    (h : cachedNonce st network = some n) :
    cachedNonce (incrementNonce st network) network = some (n + 1) := by
  simp [incrementNonce, h, cachedNonce_set]

lemma getNonce_tracked {st : BMState} {network : Network} {n : ℕ}
    (env : RpcEnv) (h : cachedNonce st network = some n) :
    getNonce st env network = (.ok (n, st), 0) := by
  simp [getNonce, h]

lemma getNonce_fresh {st : BMState} {network : Network} {n : ℕ} {env : RpcEnv}
    (h : cachedNonce st network = none) (hf : env.txCount = .ok n) :
    getNonce st env network =
      (.ok (n, setCachedNonce st network (some n)), 1) := by
  simp [getNonce, h, hf]

/-- Anatomy of one `sendTransaction` call whose nonce is already tracked
and whose signing succeeds: the assembled transaction carries the tracked
nonce, and the state left behind — for every broadcast outcome — has the
counter incremented by exactly one. -/
lemma sendTransaction_signed (C : Constants) (cfg : Config) (env : RpcEnv)
    (st : BMState) (network : Network) (n : ℕ)
    (h : cachedNonce st network = some n) (hs : env.sign = .ok ()) :
    (sendTransaction C cfg env st network).assembled.map Tx.nonce = some n ∧
    cachedNonce (sendTransaction C cfg env st network).state network =
      some (n + 1) ∧
    (sendTransaction C cfg env st network).signedOk = true := by
  have hg : (getNonce st env network).1 = .ok (n, st) := by
    rw [getNonce_tracked env h]
  cases hd : env.send <;>
    simp [sendTransaction, hg, hs, hd, incrementNonce_cached h]

/-- Anatomy of the first `sendTransaction` call on a fresh counter whose
fetch and signing succeed: the assembled transaction carries the fetched
network nonce, and the counter is left at its successor. -/
lemma sendTransaction_fresh (C : Constants) (cfg : Config) (env : RpcEnv)
    (st : BMState) (network : Network) (n0 : ℕ)
    (h : cachedNonce st network = none) (hf : env.txCount = .ok n0)
    (hs : env.sign = .ok ()) :
    (sendTransaction C cfg env st network).assembled.map Tx.nonce = some n0 ∧
    cachedNonce (sendTransaction C cfg env st network).state network =
      some (n0 + 1) := by
  have hg : (getNonce st env network).1 =
      .ok (n0, setCachedNonce st network (some n0)) := by
    rw [getNonce_fresh h hf]
  have hset : cachedNonce (setCachedNonce st network (some n0)) network =
      some n0 := cachedNonce_set st network (some n0)
  cases hd : env.send <;>
    simp [sendTransaction, hg, hs, hd, incrementNonce, hset, cachedNonce_set]

/-! ### The sendTransaction result shape -/

/-- Counterexample to claim C2 as stated: a failure of the internal
gas-pricing step does NOT produce `{success: false, ...}` — it is absorbed
by the fallback, and with every other step succeeding the call returns
`success: true`. -/
theorem sendTransaction_gasfail_still_succeeds :
    demoEnvGasFail.gasPriceWei = .error demoErr ∧
      (sendTransaction demoConsts demoCfg demoEnvGasFail
        ⟨some 5, none⟩ .fhenix).result.success = true :=
  ⟨rfl, rfl⟩

/-- Claim C2 as amended: `sendTransaction` is total (never throws): every
call returns either the broadcast-success object
`{success: true, txHash: receipt.transactionHash, receipt}` or the
failure object `{success: false, error: message, details}` with `details`
extracted from the error (missing fields defaulted); failures of the
gas-pricing and estimation steps are absorbed by fallbacks and only
nonce-fetch, signing and broadcast failures produce the failure object. -/
theorem sendTransaction_total (C : Constants) (cfg : Config) (env : RpcEnv)
    (st : BMState) (network : Network) :
    (∃ rc : Receipt,
      (sendTransaction C cfg env st network).result =
        ⟨true, some rc.transactionHash, some rc, none, none⟩) ∨
    (∃ e : JsError,
      (sendTransaction C cfg env st network).result =
        ⟨false, none, none, some e.message,
          some ⟨e.message, e.code.getD "unknown", e.data.getD "no data",
            e.reason.getD "unknown reason"⟩⟩) := by
  cases hg : (getNonce st env network).1 with
  | error e =>
    right
    exact ⟨e, by simp [sendTransaction, hg, failResult, mkDetails]⟩
  | ok v =>
    cases hs : env.sign with
    | error e =>
      right
      exact ⟨e, by simp [sendTransaction, hg, hs, failResult, mkDetails]⟩
    | ok u =>
      cases hd : env.send with
      | error e =>
        right
        exact ⟨e, by simp [sendTransaction, hg, hs, hd, failResult, mkDetails]⟩
      | ok rc =>
        left
        exact ⟨rc, by simp [sendTransaction, hg, hs, hd, okResult]⟩

/-- Claim C3: within one `sendTransaction` call the counter is incremented
right after signing and before broadcast, so two back-to-back submissions
with the counter at `n` — whatever the broadcast outcomes — carry nonces
`n` and `n + 1` and leave the counter at `n + 2`. -/
theorem nonce_incremented_before_broadcast (C : Constants) (cfg : Config)
    (network : Network) (st : BMState) (n : ℕ) (env1 env2 : RpcEnv)
    (h : cachedNonce st network = some n)
    (h1 : env1.sign = .ok ()) (h2 : env2.sign = .ok ()) :
    (sendTransaction C cfg env1 st network).assembled.map Tx.nonce = some n ∧
    cachedNonce (sendTransaction C cfg env1 st network).state network =
      some (n + 1) ∧
    (sendTransaction C cfg env2
        (sendTransaction C cfg env1 st network).state network).assembled.map
      Tx.nonce = some (n + 1) ∧
    cachedNonce (sendTransaction C cfg env2
        (sendTransaction C cfg env1 st network).state network).state network =
      some (n + 2) := by
  obtain ⟨ha1, hst1, -⟩ := sendTransaction_signed C cfg env1 st network n h h1
  obtain ⟨ha2, hst2, -⟩ := sendTransaction_signed C cfg env2
    (sendTransaction C cfg env1 st network).state network (n + 1) hst1 h2
  exact ⟨ha1, hst1, ha2, hst2⟩

/-- Witness for C3: counter at 5, first broadcast fails, second succeeds;
nonces 5 and 6 are used and the counter ends at 7. -/
theorem nonce_incremented_before_broadcast_witness :
    cachedNonce ⟨some 5, none⟩ .fhenix = some 5 ∧
      demoEnvGasFail.sign = .ok () ∧ demoEnv101.sign = .ok () ∧
      ((sendTransaction demoConsts demoCfg demoEnvGasFail
          ⟨some 5, none⟩ .fhenix).assembled.map Tx.nonce = some 5 ∧
        cachedNonce (sendTransaction demoConsts demoCfg demoEnvGasFail
            ⟨some 5, none⟩ .fhenix).state .fhenix = some 6 ∧
        (sendTransaction demoConsts demoCfg demoEnv101
            (sendTransaction demoConsts demoCfg demoEnvGasFail
              ⟨some 5, none⟩ .fhenix).state .fhenix).assembled.map
          Tx.nonce = some 6 ∧
        cachedNonce (sendTransaction demoConsts demoCfg demoEnv101
            (sendTransaction demoConsts demoCfg demoEnvGasFail
              ⟨some 5, none⟩ .fhenix).state .fhenix).state .fhenix = some 7) :=
  ⟨rfl, rfl, rfl,
    nonce_incremented_before_broadcast demoConsts demoCfg .fhenix
      ⟨some 5, none⟩ 5 demoEnvGasFail demoEnv101 rfl rfl rfl⟩

/-! ### Nonce reset -/

/-- Claim C9: after `resetNonce()`, the next `getNonce()` performs exactly
one network fetch and returns the freshly fetched transaction count (and
caches it), never the previously tracked value. -/
theorem resetNonce_then_getNonce (st : BMState) (env : RpcEnv)
    (network : Network) (n : ℕ) (h : env.txCount = .ok n) :
    (getNonce (resetNonce st network) env network).2 = 1 ∧
    (getNonce (resetNonce st network) env network).1 =
      .ok (n, setCachedNonce (resetNonce st network) network (some n)) := by
  constructor <;> simp [getNonce, resetNonce, cachedNonce_set, h]

/-- Witness for C9: a stale counter of 9 is discarded; the fresh network
value 3 is fetched (once) and returned. -/
theorem resetNonce_then_getNonce_witness :
    (⟨.ok 3, .ok 0, .ok 0, .ok (), .ok ⟨"0xee"⟩⟩ : RpcEnv).txCount = .ok 3 ∧
      ((getNonce (resetNonce ⟨some 9, some 4⟩ .fhenix)
          ⟨.ok 3, .ok 0, .ok 0, .ok (), .ok ⟨"0xee"⟩⟩ .fhenix).2 = 1 ∧
        (getNonce (resetNonce ⟨some 9, some 4⟩ .fhenix)
            ⟨.ok 3, .ok 0, .ok 0, .ok (), .ok ⟨"0xee"⟩⟩ .fhenix).1 =
          .ok (3, setCachedNonce (resetNonce ⟨some 9, some 4⟩ .fhenix)
            .fhenix (some 3))) :=
  ⟨rfl, resetNonce_then_getNonce ⟨some 9, some 4⟩
    ⟨.ok 3, .ok 0, .ok 0, .ok (), .ok ⟨"0xee"⟩⟩ .fhenix 3 rfl⟩

/-! ### Balance reporting -/

/-- Claim C10: `getBalance` is total (never throws): on success it reports
the fetched balance, its ether-denominated value and the network currency
with no error field; on any RPC failure it reports zero balances, the
currency, and the failure message. -/
theorem getBalance_shape (C : Constants) (bf : Except JsError ℕ)
    (network : Network) :
    (∃ b, bf = .ok b ∧ getBalance C bf network =
        ⟨b, (b : ℚ) / 10 ^ 18, currencyOf C network, none⟩) ∨
    (∃ e, bf = .error e ∧ getBalance C bf network =
        ⟨0, 0, currencyOf C network, some e.message⟩) := by
  cases bf with
  | ok b => exact Or.inl ⟨b, rfl, by simp [getBalance]⟩
  | error e => exact Or.inr ⟨e, rfl, by simp [getBalance]⟩

/-! ### Sequential nonce assignment across calls -/

lemma range_map_succ_shift (n L : ℕ) :
    (List.range (L + 1)).map (fun i => some (n + i)) =
      some n :: (List.range L).map (fun i => some (n + 1 + i)) := by
  rw [List.range_succ_eq_map, List.map_cons, List.map_map]
  simp only [List.cons.injEq, Nat.add_zero, true_and]
  apply List.map_congr_left
  intro i hi
  simp only [Function.comp_apply, Option.some.injEq]
  omega

/-- Once the counter is tracked at `n`, a run of calls whose signings all
succeed assembles transactions with the contiguous nonces `n, n+1, ...`. -/
lemma nonceTrace_tracked (C : Constants) (cfg : Config) (network : Network) :
    ∀ (envs : List RpcEnv) (st : BMState) (n : ℕ),
    cachedNonce st network = some n → (∀ e ∈ envs, e.sign = .ok ()) →
    nonceTrace C cfg network envs st =
      (List.range envs.length).map (fun i => some (n + i)) := by
  intro envs
  induction envs with
  | nil => intro st n _ _; simp [nonceTrace, runCalls]
  | cons env envs ih =>
    intro st n h hs
    obtain ⟨ha, hst, -⟩ := sendTransaction_signed C cfg env st network n h
      (hs env (List.mem_cons_self _ _))
    have htail := ih (sendTransaction C cfg env st network).state (n + 1) hst
      (fun e he => hs e (List.mem_cons_of_mem _ he))
    simp only [nonceTrace, runCalls, List.map_cons] at htail ⊢
    rw [List.length_cons, range_map_succ_shift]
    exact List.cons_eq_cons.mpr ⟨ha, htail⟩

/-- Claim C1: starting from an uninitialized counter, for any number of
sequential `sendTransaction` calls in which every signing step succeeds,
the assembled transactions carry the strictly increasing, contiguous
nonces `n0, n0 + 1, n0 + 2, ...` where `n0` is the transaction count the
first call fetched from the network. -/
theorem sendTransaction_sequential_nonces (C : Constants) (cfg : Config)
    (network : Network) (st : BMState) (env0 : RpcEnv) (envs : List RpcEnv)
    (n0 : ℕ) (hfresh : cachedNonce st network = none)
    (hfetch : env0.txCount = .ok n0)
    (hsign : ∀ e ∈ env0 :: envs, e.sign = .ok ()) :
    nonceTrace C cfg network (env0 :: envs) st =
      (List.range (env0 :: envs).length).map (fun i => some (n0 + i)) := by
  obtain ⟨ha, hst⟩ := sendTransaction_fresh C cfg env0 st network n0 hfresh
    hfetch (hsign env0 (List.mem_cons_self _ _))
  have htail := nonceTrace_tracked C cfg network envs
    (sendTransaction C cfg env0 st network).state (n0 + 1) hst
    (fun e he => hsign e (List.mem_cons_of_mem _ he))
  simp only [nonceTrace, runCalls, List.map_cons] at htail ⊢
  rw [List.length_cons, range_map_succ_shift]
  exact List.cons_eq_cons.mpr ⟨ha, htail⟩

/-- Witness for C1: a fresh submitter, three calls whose RPC steps all
succeed, initial network nonce 7: the assembled nonces are 7, 8, 9. -/
theorem sendTransaction_sequential_nonces_witness :
    cachedNonce ⟨none, none⟩ .fhenix = none ∧
      (⟨.ok 7, .ok (10 ^ 9), .ok 21000, .ok (), .ok ⟨"0xff"⟩⟩ : RpcEnv).txCount
        = .ok 7 ∧
      nonceTrace demoConsts demoCfg .fhenix
          [⟨.ok 7, .ok (10 ^ 9), .ok 21000, .ok (), .ok ⟨"0xff"⟩⟩,
            demoEnv101, demoEnvGasFail] ⟨none, none⟩ =
        (List.range 3).map (fun i => some (7 + i)) :=
  ⟨rfl, rfl,
    sendTransaction_sequential_nonces demoConsts demoCfg .fhenix ⟨none, none⟩
      ⟨.ok 7, .ok (10 ^ 9), .ok 21000, .ok (), .ok ⟨"0xff"⟩⟩
      [demoEnv101, demoEnvGasFail] 7 rfl rfl
      (by intro e he; fin_cases he <;> rfl)⟩
